import Mathlib

/-!
Shallow embedding of the claim-lifecycle service of the
Multi-User-Claim-Management-System backend (ClaimService in
backend/src/services/claimService.ts, models in Claim.ts / Post.ts /
AdminSettings.ts).  Mongo documents become Lean structures, the Mongo
store becomes an explicit `DB` value, monetary values are rationals,
instants are integer milliseconds, and every fallible service method
returns `Except ClaimError _`.
-/

namespace CMS

/-- Claim status enumeration, from the `status` enum of the Claim schema. -/
inductive Status where
  | pending
  | deducted
  | user_accepted
  | user_rejected
  | account_approved
  | admin_approved
  | settled
deriving DecidableEq, Repr

/-- One entry of a claim's history array (`claimHistorySchema`).  The TS
field `by` is a Lean keyword, so it is called `byUser` here. -/
structure HistoryEntry where
  action : String
  byUser : Nat
  timestamp : Int
  note : Option String
deriving DecidableEq, Repr

/-- A Post document: only the fields the claim service reads. -/
structure Post where
  id : Nat
  userId : Nat
  likeCount : Nat
  viewCount : Nat
deriving DecidableEq, Repr

/-- An AdminSettings document (the rate configuration). -/
structure RateConfig where
  ratePerLike : ℚ
  ratePer100Views : ℚ
  isActive : Bool
deriving DecidableEq, Repr

/-- A Claim document, following the Claim schema. -/
structure Claim where
  id : Nat
  userId : Nat
  postIds : List Nat
  calculatedEarnings : ℚ
  status : Status
  lockedBy : Option Nat
  lockTimestamp : Option Int
  deductionAmount : ℚ
  deductionReason : Option String
  reviewedBy : Option Nat
  finalApprovedBy : Option Nat
  history : List HistoryEntry
  createdBy : Nat
  updatedBy : Nat
  isActive : Bool
deriving DecidableEq, Repr

/-- The persistence store: the three collections the service touches. -/
structure DB where
  posts : List Post
  settings : List RateConfig
  claims : List Claim
deriving DecidableEq, Repr

/-- Error kinds raised by the service.  The TS code throws message
strings; each constructor stands for one distinct message shape and
carries the identifiers that the message interpolates. -/
inductive ClaimError where
  | invalidClaimData
  | duplicateSelection
  | duplicateClaim (conflicts : List (Nat × Status))
  | forbiddenPost (ids : List Nat)
  | configurationMissing
  | claimNotFound
  | invalidStateTransition
  | invalidDeduction
  | unauthorized
  | typeError
deriving DecidableEq, Repr

/-- JavaScript `Math.round`: floor of x + 1/2 (round half towards plus
infinity), as the TS code applies it to `totalEarnings * 100`. -/
def jsRound (x : ℚ) : Int := ⌊x + 1/2⌋

/-- Round to two decimal places the way the service does:
`Math.round(total * 100) / 100`. -/
def round2 (x : ℚ) : ℚ := (jsRound (x * 100) : ℚ) / 100

/-- `AdminSettings.findOne({ isActive: true })`. -/
def findActiveSettings (db : DB) : Option RateConfig :=
  db.settings.find? (fun s => s.isActive)

/-- `Post.find({ _id: { $in: postIds } })`. -/
def findPosts (db : DB) (postIds : List Nat) : List Post :=
  db.posts.filter (fun p => postIds.contains p.id)

/-- Per-post earnings term: `likeCount * ratePerLike + (viewCount / 100) * ratePer100Views`. -/
def postEarnings (s : RateConfig) (p : Post) : ℚ :=
  (p.likeCount : ℚ) * s.ratePerLike + ((p.viewCount : ℚ) / 100) * s.ratePer100Views

/-- `ClaimService.calculateEarnings`: sums the per-post terms over the
posts found for the given ids, then rounds to 2 decimals; fails when no
active settings record exists. -/
def calculateEarnings (db : DB) (postIds : List Nat) : Except ClaimError ℚ :=
  let posts := findPosts db postIds
  match findActiveSettings db with
  | none => .error .configurationMissing
  | some s =>
      let total := posts.foldl (fun acc p => acc + postEarnings s p) 0
      .ok (round2 total)

/-- `Claim.findById`. -/
def findById (db : DB) (claimId : Nat) : Option Claim :=
  db.claims.find? (fun c => c.id = claimId)

/-- `claim.save()` on an existing document: replace the claim with the
same id. -/
def saveClaim (db : DB) (c : Claim) : DB :=
  { db with claims := db.claims.map (fun x => if x.id = c.id then c else x) }

/-- The fixed history-action vocabulary used by the defensive cleanup in
every mutating operation. -/
def validActions : List String :=
  ["submitted", "deduction_applied", "user_accepted", "user_rejected",
   "account_approved", "admin_approved", "settled"]

/-- The defensive history cleanup: keep only entries whose action is in
the fixed vocabulary. -/
def purgeHistory (h : List HistoryEntry) : List HistoryEntry :=
  h.filter (fun e => validActions.contains e.action)

/-- Conflict details the duplicate check collects: for each existing
claim that intersects the request, each of its post ids that occurs in
the request pairs with that claim's status. -/
def conflictsFor (postIds : List Nat) : List Claim → List (Nat × Status)
  | [] => []
  | c :: rest =>
      (c.postIds.filter (fun p => postIds.contains p)).map (fun p => (p, c.status))
        ++ conflictsFor postIds rest

/-- `Claim.find({ postIds: { $in: postIds } })`: claims whose postIds
array contains any of the given ids. -/
def intersectingClaims (db : DB) (postIds : List Nat) : List Claim :=
  db.claims.filter (fun c => c.postIds.any (fun p => postIds.contains p))

/-- The fresh pending claim document `createClaim` persists. -/
def newClaim (userId : Nat) (postIds : List Nat) (createdBy newId : Nat)
    (now : Int) (earnings : ℚ) : Claim :=
  { id := newId
    userId := userId
    postIds := postIds
    calculatedEarnings := earnings
    status := .pending
    lockedBy := none
    lockTimestamp := none
    deductionAmount := 0
    deductionReason := none
    reviewedBy := none
    finalApprovedBy := none
    history := [⟨"submitted", createdBy, now, none⟩]
    createdBy := createdBy
    updatedBy := createdBy
    isActive := true }

/-- `ClaimService.createClaim`: validates input, checks cross-claim
duplicates over ALL claims (no status or isActive filter), checks post
ownership over the posts actually found, computes earnings, then appends
the new pending claim with a single `submitted` history entry.  `newId`
stands for the fresh document id the store assigns. -/
def createClaim (db : DB) (userId : Nat) (postIds : List Nat)
    (createdBy : Nat) (newId : Nat) (now : Int) :
    Except ClaimError (DB × Claim) :=
  if postIds.isEmpty then .error .invalidClaimData
  else if postIds.dedup.length ≠ postIds.length then .error .duplicateSelection
  else if (intersectingClaims db postIds).isEmpty = false then
    .error (.duplicateClaim (conflictsFor postIds (intersectingClaims db postIds)))
  else if ((findPosts db postIds).filter
      (fun p => p.userId ≠ userId)).isEmpty = false then
    .error (.forbiddenPost (((findPosts db postIds).filter
      (fun p => p.userId ≠ userId)).map (fun p => p.id)))
  else
    match calculateEarnings db postIds with
    | .error e => .error e
    | .ok earnings =>
        .ok ({ db with claims :=
                db.claims ++ [newClaim userId postIds createdBy newId now earnings] },
             newClaim userId postIds createdBy newId now earnings)

/-- The mutated claim a successful `applyDeduction` writes back. -/
def applyDeductionResult (claim : Claim) (amount : ℚ) (reason : String)
    (reviewerId : Nat) (now : Int) : Claim :=
  { claim with
    history := purgeHistory claim.history
      ++ [HistoryEntry.mk "deduction_applied" reviewerId now
           (some ("Deduction applied: " ++ reason))]
    deductionAmount := amount
    deductionReason := some reason
    status := .deducted
    reviewedBy := some reviewerId
    updatedBy := reviewerId }

/-- `ClaimService.applyDeduction`: requires the claim found and status
`pending`, then `0 < amount < calculatedEarnings`; purges invalid
history, appends a `deduction_applied` entry whose note is
`"Deduction applied: " ++ reason`, and sets the deduction fields. -/
def applyDeduction (db : DB) (claimId : Nat) (amount : ℚ) (reason : String)
    (reviewerId : Nat) (now : Int) : Except ClaimError (DB × Claim) :=
  match findById db claimId with
  | none => .error .claimNotFound
  | some claim =>
      if claim.status ≠ .pending then .error .invalidStateTransition
      else if amount ≤ 0 then .error .invalidDeduction
      else if claim.calculatedEarnings ≤ amount then .error .invalidDeduction
      else
        let c := applyDeductionResult claim amount reason reviewerId now
        .ok (saveClaim db c, c)

/-- The mutated claim a successful `respondToDeduction` writes back. -/
def respondResult (claim : Claim) (accepted : Bool) (userId : Nat)
    (now : Int) : Claim :=
  let base := { claim with
    history := purgeHistory claim.history
      ++ [HistoryEntry.mk
           (if accepted then "user_accepted" else "user_rejected")
           userId now
           (some (if accepted then "User accepted the deduction"
                  else "User rejected the deduction"))]
    updatedBy := userId }
  if accepted then { base with status := Status.user_accepted }
  else { base with
    status := Status.user_rejected
    deductionAmount := 0
    deductionReason := some "" }

/-- `ClaimService.respondToDeduction`: requires status `deducted` and
the actor to be the claim owner; appends a `user_accepted`/`user_rejected`
entry; on rejection clears the deduction fields. -/
def respondToDeduction (db : DB) (claimId : Nat) (accepted : Bool)
    (userId : Nat) (now : Int) : Except ClaimError (DB × Claim) :=
  match findById db claimId with
  | none => .error .claimNotFound
  | some claim =>
      if claim.status ≠ .deducted then .error .invalidStateTransition
      else if userId ≠ claim.userId then .error .unauthorized
      else
        let c := respondResult claim accepted userId now
        .ok (saveClaim db c, c)

/-- The mutated claim a successful `accountApprove` writes back. -/
def accountApproveResult (claim : Claim) (reviewerId : Nat) (now : Int) : Claim :=
  { claim with
    history := purgeHistory claim.history
      ++ [HistoryEntry.mk "account_approved" reviewerId now
           (some "Claim approved by account reviewer")]
    status := Status.account_approved
    reviewedBy := some reviewerId
    updatedBy := reviewerId }

/-- `ClaimService.accountApprove`: requires status `pending` or
`user_rejected`; appends an `account_approved` entry and sets status and
reviewer. -/
def accountApprove (db : DB) (claimId : Nat) (reviewerId : Nat) (now : Int) :
    Except ClaimError (DB × Claim) :=
  match findById db claimId with
  | none => .error .claimNotFound
  | some claim =>
      if claim.status ≠ .pending ∧ claim.status ≠ .user_rejected then
        .error .invalidStateTransition
      else
        let c := accountApproveResult claim reviewerId now
        .ok (saveClaim db c, c)

/-- The mutated claim a successful `accountReject` writes back. -/
def accountRejectResult (claim : Claim) (reviewerId : Nat) (reason : String)
    (now : Int) : Claim :=
  { claim with
    history := purgeHistory claim.history
      ++ [HistoryEntry.mk "user_rejected" reviewerId now (some reason)]
    status := Status.user_rejected
    reviewedBy := some reviewerId
    updatedBy := reviewerId
    deductionReason := some reason }

/-- `ClaimService.accountReject`: requires status `pending` or
`user_rejected`; appends a `user_rejected` entry carrying the reason,
sets status `user_rejected` and stores the reason in `deductionReason`. -/
def accountReject (db : DB) (claimId : Nat) (reviewerId : Nat)
    (reason : String) (now : Int) : Except ClaimError (DB × Claim) :=
  match findById db claimId with
  | none => .error .claimNotFound
  | some claim =>
      if claim.status ≠ .pending ∧ claim.status ≠ .user_rejected then
        .error .invalidStateTransition
      else
        let c := accountRejectResult claim reviewerId reason now
        .ok (saveClaim db c, c)

/-- The mutated claim a successful `adminApprove` writes back. -/
def adminApproveResult (claim : Claim) (adminId : Nat) (now : Int) : Claim :=
  { claim with
    history := purgeHistory claim.history
      ++ [HistoryEntry.mk "admin_approved" adminId now
           (some "Claim finally approved by admin")]
    status := Status.admin_approved
    finalApprovedBy := some adminId
    updatedBy := adminId }

/-- `ClaimService.adminApprove`: requires status `account_approved` or
`user_accepted`; appends an `admin_approved` entry and records the final
approver. -/
def adminApprove (db : DB) (claimId : Nat) (adminId : Nat) (now : Int) :
    Except ClaimError (DB × Claim) :=
  match findById db claimId with
  | none => .error .claimNotFound
  | some claim =>
      if claim.status ≠ .account_approved ∧ claim.status ≠ .user_accepted then
        .error .invalidStateTransition
      else
        let c := adminApproveResult claim adminId now
        .ok (saveClaim db c, c)

/-- Lock-staleness threshold: 30 minutes in milliseconds. -/
def lockThresholdMs : Int := 30 * 60 * 1000

/-- `ClaimService.lockClaim`: if locked by a different actor and the
lock is younger than 30 minutes, return false without touching the
claim; otherwise take (or refresh) the lock and return true.  The TS
code dereferences `lockTimestamp!` in the contention branch, so a locked
claim without a timestamp raises a runtime TypeError there. -/
def lockClaim (db : DB) (claimId : Nat) (userId : Nat) (now : Int) :
    Except ClaimError (DB × Bool) :=
  match findById db claimId with
  | none => .error .claimNotFound
  | some claim =>
      let take : Except ClaimError (DB × Bool) :=
        let c := { claim with lockedBy := some userId, lockTimestamp := some now }
        .ok (saveClaim db c, true)
      match claim.lockedBy with
      | some holder =>
          if holder ≠ userId then
            match claim.lockTimestamp with
            | none => .error .typeError
            | some t => if now - t < lockThresholdMs then .ok (db, false) else take
          else take
      | none => take

/-- `ClaimService.unlockClaim`: clears the lock only when the caller is
the current holder; otherwise a silent no-op. -/
def unlockClaim (db : DB) (claimId : Nat) (userId : Nat) :
    Except ClaimError DB :=
  match findById db claimId with
  | none => .error .claimNotFound
  | some claim =>
      if claim.lockedBy = some userId then
        .ok (saveClaim db { claim with lockedBy := none, lockTimestamp := none })
      else .ok db

/-! ## Specification-level definitions and helper lemmas -/

/-- Earnings formula exactly as the spec states it (section 4.1): the sum over
the posts of `likeCount * ratePerLike + (viewCount / 100) * ratePer100Views`,
rounded to two decimal places.  Written from the spec's words, to be compared
with `calculateEarnings`, which is translated from the code. -/
def earningsSpec (posts : List Post) (rl rv : ℚ) : ℚ :=
  round2 ((posts.map
    (fun p => (p.likeCount : ℚ) * rl + ((p.viewCount : ℚ) / 100) * rv)).sum)

lemma foldl_add_eq_sum (f : Post → ℚ) :
    ∀ (l : List Post) (a : ℚ),
      l.foldl (fun acc p => acc + f p) a = a + (l.map f).sum := by
  intro l
  induction l with
  | nil => intro a; simp
  | cons x xs ih => intro a; simp [ih, add_assoc]

/-- Example fixture from the spec's earnings test: one post with 10 likes and
500 views. -/
def exPost : Post := ⟨1, 7, 10, 500⟩

/-- Example fixture: active rates 0.01 per like, 0.50 per 100 views. -/
def exCfg : RateConfig := ⟨1/100, 1/2, true⟩

/-- Example store for the earnings example. -/
def exDB : DB := ⟨[exPost], [exCfg], []⟩

/-- Store with no active rate configuration. -/
def noCfgDB : DB := ⟨[exPost], [], []⟩

lemma calculateEarnings_of_active {db : DB} {s : RateConfig}
    (hs : findActiveSettings db = some s) (postIds : List Nat) :
    calculateEarnings db postIds =
      .ok (earningsSpec (findPosts db postIds) s.ratePerLike
            s.ratePer100Views) := by
  simp only [calculateEarnings, hs]
  unfold earningsSpec
  rw [foldl_add_eq_sum (postEarnings s), zero_add]
  rfl

/-- C3: `calculateEarnings` fails with the configuration-missing error when no
active rate configuration exists, and otherwise returns exactly the spec's
formula: the sum over the found posts of
`likeCount * ratePerLike + (viewCount / 100) * ratePer100Views`, rounded to
two decimal places with standard rounding; on the spec's example (10 likes,
500 views at rates 0.01 and 0.50) it yields 2.60. -/
theorem calculateEarnings_meets_spec (db : DB) (postIds : List Nat) :
    (findActiveSettings db = none →
      calculateEarnings db postIds = .error .configurationMissing) ∧
    (∀ s, findActiveSettings db = some s →
      calculateEarnings db postIds =
        .ok (earningsSpec (findPosts db postIds) s.ratePerLike s.ratePer100Views)) ∧
    calculateEarnings exDB [1] = .ok (13/5) := by
  refine ⟨?_, ?_, ?_⟩
  · intro h
    unfold calculateEarnings
    rw [h]
  · intro s hs
    exact calculateEarnings_of_active hs postIds
  · simp only [calculateEarnings, findActiveSettings, exDB, exCfg, List.find?,
      findPosts, exPost, postEarnings, round2, jsRound]
    norm_num

/-- Witness for C3: both hypotheses of `calculateEarnings_meets_spec` are
satisfiable on concrete stores. -/
theorem calculateEarnings_meets_spec_witness :
    (findActiveSettings exDB = some exCfg ∧
      calculateEarnings exDB [1] =
        .ok (earningsSpec (findPosts exDB [1]) exCfg.ratePerLike
              exCfg.ratePer100Views)) ∧
    (findActiveSettings noCfgDB = none ∧
      calculateEarnings noCfgDB [1] = .error .configurationMissing) :=
  ⟨⟨rfl, (calculateEarnings_meets_spec exDB [1]).2.1 exCfg rfl⟩,
   ⟨rfl, (calculateEarnings_meets_spec noCfgDB [1]).1 rfl⟩⟩

lemma applyDeduction_of_found {db : DB} {claimId : Nat} {c : Claim}
    (h : findById db claimId = some c) (amount : ℚ) (reason : String)
    (actor : Nat) (now : Int) :
    applyDeduction db claimId amount reason actor now =
      if c.status ≠ Status.pending then .error .invalidStateTransition
      else if amount ≤ 0 then .error .invalidDeduction
      else if c.calculatedEarnings ≤ amount then .error .invalidDeduction
      else .ok (saveClaim db (applyDeductionResult c amount reason actor now),
                applyDeductionResult c amount reason actor now) := by
  unfold applyDeduction
  rw [h]

lemma respondToDeduction_of_found {db : DB} {claimId : Nat} {c : Claim}
    (h : findById db claimId = some c) (accepted : Bool) (userId : Nat)
    (now : Int) :
    respondToDeduction db claimId accepted userId now =
      if c.status ≠ Status.deducted then .error .invalidStateTransition
      else if userId ≠ c.userId then .error .unauthorized
      else .ok (saveClaim db (respondResult c accepted userId now),
                respondResult c accepted userId now) := by
  unfold respondToDeduction
  rw [h]

lemma accountApprove_of_found {db : DB} {claimId : Nat} {c : Claim}
    (h : findById db claimId = some c) (actor : Nat) (now : Int) :
    accountApprove db claimId actor now =
      if c.status ≠ Status.pending ∧ c.status ≠ Status.user_rejected then
        .error .invalidStateTransition
      else .ok (saveClaim db (accountApproveResult c actor now),
                accountApproveResult c actor now) := by
  unfold accountApprove
  rw [h]

lemma accountReject_of_found {db : DB} {claimId : Nat} {c : Claim}
    (h : findById db claimId = some c) (actor : Nat) (reason : String)
    (now : Int) :
    accountReject db claimId actor reason now =
      if c.status ≠ Status.pending ∧ c.status ≠ Status.user_rejected then
        .error .invalidStateTransition
      else .ok (saveClaim db (accountRejectResult c actor reason now),
                accountRejectResult c actor reason now) := by
  unfold accountReject
  rw [h]

lemma adminApprove_of_found {db : DB} {claimId : Nat} {c : Claim}
    (h : findById db claimId = some c) (actor : Nat) (now : Int) :
    adminApprove db claimId actor now =
      if c.status ≠ Status.account_approved ∧ c.status ≠ Status.user_accepted then
        .error .invalidStateTransition
      else .ok (saveClaim db (adminApproveResult c actor now),
                adminApproveResult c actor now) := by
  unfold adminApprove
  rw [h]

/-- Fixture: a single claim with a chosen status. -/
def wClaim (st : Status) : Claim :=
  { id := 1
    userId := 7
    postIds := [101]
    calculatedEarnings := 10
    status := st
    lockedBy := none
    lockTimestamp := none
    deductionAmount := 0
    deductionReason := none
    reviewedBy := none
    finalApprovedBy := none
    history := [HistoryEntry.mk "submitted" 7 0 none]
    createdBy := 7
    updatedBy := 7
    isActive := true }

/-- Fixture: a store holding only `wClaim st`. -/
def wDB (st : Status) : DB := ⟨[], [], [wClaim st]⟩

/-- C1: each transition operation succeeds only from its listed source
statuses (`pending` for applyDeduction; `deducted` for respondToDeduction;
`pending`/`user_rejected` for accountApprove and accountReject;
`account_approved`/`user_accepted` for adminApprove), and from any other
status it fails with the invalid-state-transition error. -/
theorem transitions_respect_state_machine
    (db : DB) (claimId : Nat) (c : Claim) (h : findById db claimId = some c)
    (amount : ℚ) (reason : String) (actor : Nat) (now : Int) (accepted : Bool) :
    ((applyDeduction db claimId amount reason actor now).isOk = true →
      c.status = Status.pending) ∧
    (c.status ≠ Status.pending →
      applyDeduction db claimId amount reason actor now =
        .error .invalidStateTransition) ∧
    ((respondToDeduction db claimId accepted actor now).isOk = true →
      c.status = Status.deducted) ∧
    (c.status ≠ Status.deducted →
      respondToDeduction db claimId accepted actor now =
        .error .invalidStateTransition) ∧
    ((accountApprove db claimId actor now).isOk = true →
      c.status = Status.pending ∨ c.status = Status.user_rejected) ∧
    (¬(c.status = Status.pending ∨ c.status = Status.user_rejected) →
      accountApprove db claimId actor now = .error .invalidStateTransition) ∧
    ((accountReject db claimId actor reason now).isOk = true →
      c.status = Status.pending ∨ c.status = Status.user_rejected) ∧
    (¬(c.status = Status.pending ∨ c.status = Status.user_rejected) →
      accountReject db claimId actor reason now =
        .error .invalidStateTransition) ∧
    ((adminApprove db claimId actor now).isOk = true →
      c.status = Status.account_approved ∨ c.status = Status.user_accepted) ∧
    (¬(c.status = Status.account_approved ∨ c.status = Status.user_accepted) →
      adminApprove db claimId actor now = .error .invalidStateTransition) := by
  rw [applyDeduction_of_found h amount reason actor now,
      respondToDeduction_of_found h accepted actor now,
      accountApprove_of_found h actor now,
      accountReject_of_found h actor reason now,
      adminApprove_of_found h actor now]
  cases hst : c.status <;> simp [hst, Except.isOk, Except.toBool]

/-- Witness for C1: the state-machine theorem applied to a concrete store
holding a single pending claim. -/
theorem transitions_respect_state_machine_witness :
    findById (wDB Status.pending) 1 = some (wClaim Status.pending) ∧
    (((applyDeduction (wDB Status.pending) 1 5 "r" 9 0).isOk = true →
        (wClaim Status.pending).status = Status.pending) ∧
      ((wClaim Status.pending).status ≠ Status.pending →
        applyDeduction (wDB Status.pending) 1 5 "r" 9 0 =
          .error .invalidStateTransition) ∧
      ((respondToDeduction (wDB Status.pending) 1 true 9 0).isOk = true →
        (wClaim Status.pending).status = Status.deducted) ∧
      ((wClaim Status.pending).status ≠ Status.deducted →
        respondToDeduction (wDB Status.pending) 1 true 9 0 =
          .error .invalidStateTransition) ∧
      ((accountApprove (wDB Status.pending) 1 9 0).isOk = true →
        (wClaim Status.pending).status = Status.pending ∨
          (wClaim Status.pending).status = Status.user_rejected) ∧
      (¬((wClaim Status.pending).status = Status.pending ∨
          (wClaim Status.pending).status = Status.user_rejected) →
        accountApprove (wDB Status.pending) 1 9 0 =
          .error .invalidStateTransition) ∧
      ((accountReject (wDB Status.pending) 1 9 "r" 0).isOk = true →
        (wClaim Status.pending).status = Status.pending ∨
          (wClaim Status.pending).status = Status.user_rejected) ∧
      (¬((wClaim Status.pending).status = Status.pending ∨
          (wClaim Status.pending).status = Status.user_rejected) →
        accountReject (wDB Status.pending) 1 9 "r" 0 =
          .error .invalidStateTransition) ∧
      ((adminApprove (wDB Status.pending) 1 9 0).isOk = true →
        (wClaim Status.pending).status = Status.account_approved ∨
          (wClaim Status.pending).status = Status.user_accepted) ∧
      (¬((wClaim Status.pending).status = Status.account_approved ∨
          (wClaim Status.pending).status = Status.user_accepted) →
        adminApprove (wDB Status.pending) 1 9 0 =
          .error .invalidStateTransition)) :=
  ⟨rfl, transitions_respect_state_machine (wDB Status.pending) 1
    (wClaim Status.pending) rfl 5 "r" 9 0 true⟩

/-- C4 counterexample: on a concrete pending claim, a valid deduction of 5
with reason "late" appends a history entry whose note is
`"Deduction applied: late"`, which is not the bare reason `"late"` the claim
asserts. -/
theorem applyDeduction_note_counterexample :
    (applyDeduction (wDB Status.pending) 1 5 "late" 9 0).map
        (fun r => r.2.history.map (fun e => e.note)) =
      .ok [none, some "Deduction applied: late"] ∧
    some ("Deduction applied: late") ≠ some ("late" : String) := by
  refine ⟨by rfl, by decide⟩

/-- C4 (amended): for a found claim with status `pending`, applyDeduction
fails with the invalid-deduction error exactly when `amount ≤ 0` or
`amount ≥ calculatedEarnings`; for `0 < amount < calculatedEarnings` it
succeeds and returns the claim with a `deduction_applied` history entry by
the actor whose note is `"Deduction applied: " ++ reason`, with
`deductionAmount = amount`, `deductionReason = reason`, status `deducted`
and `reviewedBy` the actor. -/
theorem applyDeduction_contract
    (db : DB) (claimId : Nat) (c : Claim) (amount : ℚ) (reason : String)
    (actor : Nat) (now : Int)
    (h : findById db claimId = some c) (hst : c.status = Status.pending) :
    (applyDeduction db claimId amount reason actor now =
        .error .invalidDeduction ↔
      amount ≤ 0 ∨ c.calculatedEarnings ≤ amount) ∧
    (0 < amount → amount < c.calculatedEarnings →
      ∃ db2 c2, applyDeduction db claimId amount reason actor now =
          .ok (db2, c2) ∧
        c2.history = purgeHistory c.history ++
          [HistoryEntry.mk "deduction_applied" actor now
            (some ("Deduction applied: " ++ reason))] ∧
        c2.deductionAmount = amount ∧
        c2.deductionReason = some reason ∧
        c2.status = Status.deducted ∧
        c2.reviewedBy = some actor) := by
  rw [applyDeduction_of_found h amount reason actor now]
  simp only [hst]
  constructor
  · by_cases h1 : amount ≤ 0
    · simp [h1]
    · by_cases h2 : c.calculatedEarnings ≤ amount <;> simp [h1, h2]
  · intro hpos hlt
    have h1 : ¬ amount ≤ 0 := not_le.mpr hpos
    have h2 : ¬ c.calculatedEarnings ≤ amount := not_le.mpr hlt
    refine ⟨saveClaim db (applyDeductionResult c amount reason actor now),
      applyDeductionResult c amount reason actor now, ?_, rfl, rfl, rfl, rfl, rfl⟩
    simp [h1, h2]

/-- Witness for C4: the amended contract applied to a concrete pending
claim. -/
theorem applyDeduction_contract_witness :
    findById (wDB Status.pending) 1 = some (wClaim Status.pending) ∧
    (wClaim Status.pending).status = Status.pending ∧
    ((applyDeduction (wDB Status.pending) 1 5 "late" 9 0 =
        .error .invalidDeduction ↔
      (5:ℚ) ≤ 0 ∨ (wClaim Status.pending).calculatedEarnings ≤ 5) ∧
    ((0:ℚ) < 5 → (5:ℚ) < (wClaim Status.pending).calculatedEarnings →
      ∃ db2 c2, applyDeduction (wDB Status.pending) 1 5 "late" 9 0 =
          .ok (db2, c2) ∧
        c2.history = purgeHistory (wClaim Status.pending).history ++
          [HistoryEntry.mk "deduction_applied" 9 0
            (some ("Deduction applied: " ++ "late"))] ∧
        c2.deductionAmount = 5 ∧
        c2.deductionReason = some "late" ∧
        c2.status = Status.deducted ∧
        c2.reviewedBy = some 9)) :=
  ⟨rfl, rfl,
    applyDeduction_contract (wDB Status.pending) 1 (wClaim Status.pending)
      5 "late" 9 0 rfl rfl⟩

/-- C5: for a found claim with status `deducted`, respondToDeduction fails
with the unauthorized error when the actor is not the claim owner; when the
actor is the owner and `accepted = false` it appends a `user_rejected`
history entry, resets `deductionAmount` to 0 and `deductionReason` to the
empty string, and sets status `user_rejected`; when `accepted = true` it
appends a `user_accepted` entry and sets status `user_accepted`. -/
theorem respondToDeduction_contract
    (db : DB) (claimId : Nat) (c : Claim) (accepted : Bool) (userId : Nat)
    (now : Int)
    (h : findById db claimId = some c) (hst : c.status = Status.deducted) :
    (userId ≠ c.userId →
      respondToDeduction db claimId accepted userId now =
        .error .unauthorized) ∧
    (userId = c.userId → accepted = false →
      ∃ db2 c2, respondToDeduction db claimId accepted userId now =
          .ok (db2, c2) ∧
        c2.history = purgeHistory c.history ++
          [HistoryEntry.mk "user_rejected" userId now
            (some "User rejected the deduction")] ∧
        c2.deductionAmount = 0 ∧
        c2.deductionReason = some "" ∧
        c2.status = Status.user_rejected) ∧
    (userId = c.userId → accepted = true →
      ∃ db2 c2, respondToDeduction db claimId accepted userId now =
          .ok (db2, c2) ∧
        c2.history = purgeHistory c.history ++
          [HistoryEntry.mk "user_accepted" userId now
            (some "User accepted the deduction")] ∧
        c2.status = Status.user_accepted) := by
  rw [respondToDeduction_of_found h accepted userId now]
  simp only [hst]
  refine ⟨fun hne => by simp [hne], fun heq hacc => ?_, fun heq hacc => ?_⟩
  · subst hacc
    refine ⟨saveClaim db (respondResult c false userId now),
      respondResult c false userId now, by simp [heq], ?_, ?_, ?_, ?_⟩ <;>
      simp [respondResult]
  · subst hacc
    refine ⟨saveClaim db (respondResult c true userId now),
      respondResult c true userId now, by simp [heq], ?_, ?_⟩ <;>
      simp [respondResult]

/-- Witness for C5: the contract applied to a concrete deducted claim owned
by user 7. -/
theorem respondToDeduction_contract_witness :
    findById (wDB Status.deducted) 1 = some (wClaim Status.deducted) ∧
    (wClaim Status.deducted).status = Status.deducted ∧
    ((7 ≠ (wClaim Status.deducted).userId →
      respondToDeduction (wDB Status.deducted) 1 false 7 0 =
        .error .unauthorized) ∧
    (7 = (wClaim Status.deducted).userId → false = false →
      ∃ db2 c2, respondToDeduction (wDB Status.deducted) 1 false 7 0 =
          .ok (db2, c2) ∧
        c2.history = purgeHistory (wClaim Status.deducted).history ++
          [HistoryEntry.mk "user_rejected" 7 0
            (some "User rejected the deduction")] ∧
        c2.deductionAmount = 0 ∧
        c2.deductionReason = some "" ∧
        c2.status = Status.user_rejected) ∧
    (7 = (wClaim Status.deducted).userId → false = true →
      ∃ db2 c2, respondToDeduction (wDB Status.deducted) 1 false 7 0 =
          .ok (db2, c2) ∧
        c2.history = purgeHistory (wClaim Status.deducted).history ++
          [HistoryEntry.mk "user_accepted" 7 0
            (some "User accepted the deduction")] ∧
        c2.status = Status.user_accepted)) :=
  ⟨rfl, rfl,
    respondToDeduction_contract (wDB Status.deducted) 1
      (wClaim Status.deducted) false 7 0 rfl rfl⟩

/-- Fixture: a pending claim that has been soft-deleted. -/
def inactiveClaim : Claim := { wClaim Status.pending with isActive := false }

/-- Fixture: a store holding only the inactive pending claim. -/
def inactiveDB : DB := ⟨[], [], [inactiveClaim]⟩

/-- Fixture: a store with no claims at all. -/
def emptyDB : DB := ⟨[], [], []⟩

/-- C6 counterexample: the claim with `active = false` is transitioned
anyway — `accountApprove` and `applyDeduction` both succeed on an inactive
pending claim, so the active-flag precondition asserted by the claim does
not exist in the code. -/
theorem inactive_claim_transition_counterexample :
    inactiveClaim.isActive = false ∧
    (accountApprove inactiveDB 1 9 0).isOk = true ∧
    (applyDeduction inactiveDB 1 5 "r" 9 0).isOk = true :=
  ⟨rfl, rfl, rfl⟩

/-- Fixture: a deducted claim (owned by user 7) that has been soft-deleted. -/
def inactiveDeducted : Claim :=
  { wClaim Status.deducted with isActive := false }

/-- Fixture: a store holding only the inactive deducted claim. -/
def inactiveDeductedDB : DB := ⟨[], [], [inactiveDeducted]⟩

/-- Fixture: an account-approved claim that has been soft-deleted. -/
def inactiveApproved : Claim :=
  { wClaim Status.account_approved with isActive := false }

/-- Fixture: a store holding only the inactive account-approved claim. -/
def inactiveApprovedDB : DB := ⟨[], [], [inactiveApproved]⟩

/-- C6 (amended): every transition operation (applyDeduction,
respondToDeduction, accountApprove, accountReject, adminApprove) requires
that the referenced claim exists — each fails with the not-found error on a
missing id — but none of the five checks the active flag: an inactive claim
in a valid source status, with the operation's own other preconditions met,
is transitioned normally. -/
theorem transitions_require_existence_not_active
    (db : DB) (claimId : Nat) (amount : ℚ) (reason : String) (actor : Nat)
    (now : Int) (accepted : Bool) (c : Claim) :
    (findById db claimId = none →
      applyDeduction db claimId amount reason actor now =
        .error .claimNotFound ∧
      respondToDeduction db claimId accepted actor now =
        .error .claimNotFound ∧
      accountApprove db claimId actor now = .error .claimNotFound ∧
      accountReject db claimId actor reason now = .error .claimNotFound ∧
      adminApprove db claimId actor now = .error .claimNotFound) ∧
    (findById db claimId = some c → c.isActive = false →
      (c.status = Status.pending → 0 < amount →
        amount < c.calculatedEarnings →
        (applyDeduction db claimId amount reason actor now).isOk = true) ∧
      (c.status = Status.deducted → actor = c.userId →
        (respondToDeduction db claimId accepted actor now).isOk = true) ∧
      (c.status = Status.pending →
        (accountApprove db claimId actor now).isOk = true) ∧
      (c.status = Status.pending →
        (accountReject db claimId actor reason now).isOk = true) ∧
      (c.status = Status.account_approved →
        (adminApprove db claimId actor now).isOk = true)) := by
  constructor
  · intro hn
    refine ⟨?_, ?_, ?_, ?_, ?_⟩
    · unfold applyDeduction; rw [hn]
    · unfold respondToDeduction; rw [hn]
    · unfold accountApprove; rw [hn]
    · unfold accountReject; rw [hn]
    · unfold adminApprove; rw [hn]
  · intro h _
    refine ⟨?_, ?_, ?_, ?_, ?_⟩
    · intro hst hpos hlt
      have h1 : ¬ amount ≤ 0 := not_le.mpr hpos
      have h2 : ¬ c.calculatedEarnings ≤ amount := not_le.mpr hlt
      rw [applyDeduction_of_found h amount reason actor now]
      simp [hst, h1, h2, Except.isOk, Except.toBool]
    · intro hst hown
      rw [respondToDeduction_of_found h accepted actor now]
      simp [hst, hown, Except.isOk, Except.toBool]
    · intro hst
      rw [accountApprove_of_found h actor now]
      simp [hst, Except.isOk, Except.toBool]
    · intro hst
      rw [accountReject_of_found h actor reason now]
      simp [hst, Except.isOk, Except.toBool]
    · intro hst
      rw [adminApprove_of_found h actor now]
      simp [hst, Except.isOk, Except.toBool]

/-- Witness for C6 (amended): every branch discharged on concrete stores —
a missing claim id, and inactive claims in pending, deducted and
account-approved statuses, exercising all five transitions. -/
theorem transitions_require_existence_not_active_witness :
    (findById emptyDB 1 = none ∧
      (applyDeduction emptyDB 1 5 "r" 9 0 = .error .claimNotFound ∧
       respondToDeduction emptyDB 1 true 9 0 = .error .claimNotFound ∧
       accountApprove emptyDB 1 9 0 = .error .claimNotFound ∧
       accountReject emptyDB 1 9 "r" 0 = .error .claimNotFound ∧
       adminApprove emptyDB 1 9 0 = .error .claimNotFound)) ∧
    (findById inactiveDB 1 = some inactiveClaim ∧
      inactiveClaim.isActive = false ∧
      inactiveClaim.status = Status.pending ∧
      (0:ℚ) < 5 ∧ (5:ℚ) < inactiveClaim.calculatedEarnings ∧
      (applyDeduction inactiveDB 1 5 "r" 9 0).isOk = true ∧
      (accountApprove inactiveDB 1 9 0).isOk = true ∧
      (accountReject inactiveDB 1 9 "r" 0).isOk = true) ∧
    (findById inactiveDeductedDB 1 = some inactiveDeducted ∧
      inactiveDeducted.isActive = false ∧
      inactiveDeducted.status = Status.deducted ∧
      7 = inactiveDeducted.userId ∧
      (respondToDeduction inactiveDeductedDB 1 true 7 0).isOk = true) ∧
    (findById inactiveApprovedDB 1 = some inactiveApproved ∧
      inactiveApproved.isActive = false ∧
      inactiveApproved.status = Status.account_approved ∧
      (adminApprove inactiveApprovedDB 1 9 0).isOk = true) :=
  ⟨⟨rfl, (transitions_require_existence_not_active emptyDB 1 5 "r" 9 0 true
      inactiveClaim).1 rfl⟩,
   ⟨rfl, rfl, rfl, by decide, by decide,
    ((transitions_require_existence_not_active inactiveDB 1 5 "r" 9 0 true
      inactiveClaim).2 rfl rfl).1 rfl (by decide) (by decide),
    ((transitions_require_existence_not_active inactiveDB 1 5 "r" 9 0 true
      inactiveClaim).2 rfl rfl).2.2.1 rfl,
    ((transitions_require_existence_not_active inactiveDB 1 5 "r" 9 0 true
      inactiveClaim).2 rfl rfl).2.2.2.1 rfl⟩,
   ⟨rfl, rfl, rfl, rfl,
    ((transitions_require_existence_not_active inactiveDeductedDB 1 5 "r" 7 0
      true inactiveDeducted).2 rfl rfl).2.1 rfl rfl⟩,
   ⟨rfl, rfl, rfl,
    ((transitions_require_existence_not_active inactiveApprovedDB 1 5 "r" 9 0
      true inactiveApproved).2 rfl rfl).2.2.2.2 rfl⟩⟩

lemma mem_conflictsFor {postIds : List Nat} {cs : List Claim} {c : Claim}
    {p : Nat} (hc : c ∈ cs) (hp : p ∈ c.postIds) (hmem : p ∈ postIds) :
    (p, c.status) ∈ conflictsFor postIds cs := by
  induction cs with
  | nil => cases hc
  | cons x rest ih =>
      rcases List.mem_cons.mp hc with hx | hrest
      · subst hx
        refine List.mem_append_left _ ?_
        simp only [List.mem_map, List.mem_filter]
        exact ⟨p, ⟨hp, by simpa using hmem⟩, rfl⟩
      · exact List.mem_append_right _ (ih hrest)

lemma mem_intersectingClaims {db : DB} {postIds : List Nat} {c : Claim}
    {p : Nat} (hc : c ∈ db.claims) (hp : p ∈ c.postIds) (hmem : p ∈ postIds) :
    c ∈ intersectingClaims db postIds := by
  unfold intersectingClaims
  simp only [List.mem_filter, List.any_eq_true]
  exact ⟨hc, p, hp, by simpa using hmem⟩

/-- C2: if any existing claim's postIds intersect the requested set — no
matter that claim's status or active flag — createClaim fails with the
duplicate-claim error, and the error payload names every conflicting post id
paired with the status of its existing claim. -/
theorem createClaim_duplicate_prevention
    (db : DB) (c : Claim) (userId createdBy newId : Nat)
    (postIds : List Nat) (now : Int) (p : Nat)
    (hc : c ∈ db.claims) (hp : p ∈ c.postIds) (hmem : p ∈ postIds)
    (hnd : postIds.Nodup) :
    createClaim db userId postIds createdBy newId now =
      .error (.duplicateClaim
        (conflictsFor postIds (intersectingClaims db postIds))) ∧
    (p, c.status) ∈ conflictsFor postIds (intersectingClaims db postIds) ∧
    (∀ c2 ∈ db.claims, ∀ q ∈ c2.postIds, q ∈ postIds →
      (q, c2.status) ∈ conflictsFor postIds (intersectingClaims db postIds)) := by
  have hne : postIds ≠ [] := List.ne_nil_of_mem hmem
  have hdedup : postIds.dedup = postIds := List.dedup_eq_self.mpr hnd
  have hinter : c ∈ intersectingClaims db postIds :=
    mem_intersectingClaims hc hp hmem
  have hnonempty : (intersectingClaims db postIds).isEmpty = false := by
    cases h2 : intersectingClaims db postIds with
    | nil => rw [h2] at hinter; cases hinter
    | cons x xs => rfl
  refine ⟨?_, mem_conflictsFor hinter hp hmem,
    fun c2 hc2 q hq hqmem =>
      mem_conflictsFor (mem_intersectingClaims hc2 hq hqmem) hq hqmem⟩
  unfold createClaim
  simp [hne, hdedup, hnonempty]

/-- Fixture: an already-settled, soft-deleted claim over post 101 — the
duplicate check must still reject overlaps with it. -/
def dupClaim : Claim :=
  { wClaim Status.settled with isActive := false }

/-- Fixture: store containing only `dupClaim`. -/
def dupDB : DB := ⟨[], [], [dupClaim]⟩

/-- Witness for C2: creating a claim over posts [101, 102] while the
settled, inactive `dupClaim` already covers post 101. -/
theorem createClaim_duplicate_prevention_witness :
    dupClaim ∈ dupDB.claims ∧
    101 ∈ dupClaim.postIds ∧
    101 ∈ [101, 102] ∧
    ([101, 102] : List Nat).Nodup ∧
    (createClaim dupDB 7 [101, 102] 7 2 0 =
      .error (.duplicateClaim
        (conflictsFor [101, 102] (intersectingClaims dupDB [101, 102]))) ∧
    (101, dupClaim.status) ∈
      conflictsFor [101, 102] (intersectingClaims dupDB [101, 102]) ∧
    (∀ c2 ∈ dupDB.claims, ∀ q ∈ c2.postIds, q ∈ [101, 102] →
      (q, c2.status) ∈
        conflictsFor [101, 102] (intersectingClaims dupDB [101, 102]))) :=
  ⟨by decide, by decide, by decide, by decide,
    createClaim_duplicate_prevention dupDB dupClaim 7 7 2 [101, 102] 0 101
      (by decide) (by decide) (by decide) (by decide)⟩

/-- C7: when the other validations would pass but some referenced post
exists and belongs to a different user, createClaim fails with the
forbidden-post error, whose payload contains the id of every found post not
owned by the submitting user; since the call errors, no claim is written to
the store. -/
theorem createClaim_ownership_check
    (db : DB) (userId createdBy newId : Nat) (postIds : List Nat) (now : Int)
    (post : Post)
    (hne : postIds ≠ []) (hnd : postIds.Nodup)
    (hconf : intersectingClaims db postIds = [])
    (hpost : post ∈ db.posts) (hid : post.id ∈ postIds)
    (hown : post.userId ≠ userId) :
    ∃ ids, createClaim db userId postIds createdBy newId now =
        .error (.forbiddenPost ids) ∧
      post.id ∈ ids ∧
      (∀ q ∈ db.posts, q.id ∈ postIds → q.userId ≠ userId → q.id ∈ ids) := by
  have hdedup : postIds.dedup = postIds := List.dedup_eq_self.mpr hnd
  have hmemfp : ∀ q ∈ db.posts, q.id ∈ postIds → q.userId ≠ userId →
      q ∈ (findPosts db postIds).filter (fun p => p.userId ≠ userId) := by
    intro q hq hqid hqown
    unfold findPosts
    simp only [List.mem_filter]
    exact ⟨⟨hq, by simpa using hqid⟩, by simpa using hqown⟩
  have hpmem := hmemfp post hpost hid hown
  have hinvne : ((findPosts db postIds).filter
      (fun p => p.userId ≠ userId)).isEmpty = false := by
    cases h2 : (findPosts db postIds).filter (fun p => p.userId ≠ userId) with
    | nil => rw [h2] at hpmem; cases hpmem
    | cons x xs => rfl
  refine ⟨((findPosts db postIds).filter
      (fun p => p.userId ≠ userId)).map (fun p => p.id), ?_, ?_, ?_⟩
  · unfold createClaim
    simp [hne, hdedup, hconf, hinvne]
    intro hall
    have hmem2 : post ∈ findPosts db postIds := (List.mem_filter.mp hpmem).1
    exact (hown (hall post hmem2)).elim
  · exact List.mem_map_of_mem (fun p => p.id) hpmem
  · intro q hq hqid hqown
    exact List.mem_map_of_mem (fun p => p.id) (hmemfp q hq hqid hqown)

/-- Fixture: a post owned by user 8. -/
def otherPost : Post := ⟨102, 8, 3, 0⟩

/-- Fixture: store for the ownership check — one foreign post, no claims. -/
def ownDB : DB := ⟨[otherPost], [exCfg], []⟩

/-- Witness for C7: user 7 claims post 102, which belongs to user 8. -/
theorem createClaim_ownership_check_witness :
    ([102] : List Nat) ≠ [] ∧
    ([102] : List Nat).Nodup ∧
    intersectingClaims ownDB [102] = [] ∧
    otherPost ∈ ownDB.posts ∧
    otherPost.id ∈ [102] ∧
    otherPost.userId ≠ 7 ∧
    (∃ ids, createClaim ownDB 7 [102] 7 2 0 = .error (.forbiddenPost ids) ∧
      otherPost.id ∈ ids ∧
      (∀ q ∈ ownDB.posts, q.id ∈ [102] → q.userId ≠ 7 → q.id ∈ ids)) :=
  ⟨by decide, by decide, by decide, by decide, by decide, by decide,
    createClaim_ownership_check ownDB 7 7 2 [102] 0 otherPost
      (by decide) (by decide) (by decide) (by decide) (by decide) (by decide)⟩

/-- C10: createClaim never checks that every referenced post id matches a
stored post.  Given no duplicate conflict, all FOUND posts owned by the
submitter and an active rate configuration, the call succeeds even when some
ids match nothing: the new claim keeps the full requested `postIds` list,
its earnings are computed from the found posts only (ids matching no post
contribute nothing), and the claim is appended to the store. -/
theorem createClaim_ignores_missing_posts
    (db : DB) (userId createdBy newId : Nat) (postIds : List Nat) (now : Int)
    (s : RateConfig)
    (hne : postIds ≠ []) (hnd : postIds.Nodup)
    (hconf : intersectingClaims db postIds = [])
    (hown : ∀ p ∈ db.posts, p.id ∈ postIds → p.userId = userId)
    (hs : findActiveSettings db = some s) :
    ∃ db2 c2, createClaim db userId postIds createdBy newId now =
        .ok (db2, c2) ∧
      c2.postIds = postIds ∧
      c2.calculatedEarnings =
        earningsSpec (findPosts db postIds) s.ratePerLike s.ratePer100Views ∧
      db2.claims = db.claims ++ [c2] := by
  have hdedup : postIds.dedup = postIds := List.dedup_eq_self.mpr hnd
  have hinv : (findPosts db postIds).filter (fun p => p.userId ≠ userId) = [] := by
    refine List.filter_eq_nil_iff.mpr ?_
    intro q hq
    have hq2 := List.mem_filter.mp hq
    have := hown q hq2.1 (by simpa using hq2.2)
    simp [this]
  refine ⟨{ db with claims := db.claims ++
      [newClaim userId postIds createdBy newId now
        (earningsSpec (findPosts db postIds) s.ratePerLike s.ratePer100Views)] },
    newClaim userId postIds createdBy newId now
      (earningsSpec (findPosts db postIds) s.ratePerLike s.ratePer100Views),
    ?_, rfl, rfl, rfl⟩
  unfold createClaim
  rw [calculateEarnings_of_active hs postIds]
  simp [hne, hdedup, hconf, hinv]
  intro q hq
  have hq2 := List.mem_filter.mp (show q ∈ db.posts.filter
    (fun p => postIds.contains p.id) from hq)
  exact hown q hq2.1 (by simpa using hq2.2)

/-- Fixture: a post owned by user 7 with 2 likes. -/
def ownPost : Post := ⟨101, 7, 2, 0⟩

/-- Fixture: store for the missing-post scenario — one stored post, an
active rate configuration, no claims. -/
def missDB : DB := ⟨[ownPost], [exCfg], []⟩

/-- Witness for C10: user 7 claims posts [101, 999] where id 999 matches no
stored post; the call succeeds and 999 is retained while only post 101 is
found for the earnings sum. -/
theorem createClaim_ignores_missing_posts_witness :
    ([101, 999] : List Nat) ≠ [] ∧
    ([101, 999] : List Nat).Nodup ∧
    intersectingClaims missDB [101, 999] = [] ∧
    (∀ p ∈ missDB.posts, p.id ∈ [101, 999] → p.userId = 7) ∧
    findActiveSettings missDB = some exCfg ∧
    (∀ p ∈ missDB.posts, p.id ≠ 999) ∧
    findPosts missDB [101, 999] = [ownPost] ∧
    (∃ db2 c2, createClaim missDB 7 [101, 999] 7 2 0 = .ok (db2, c2) ∧
      c2.postIds = [101, 999] ∧
      c2.calculatedEarnings =
        earningsSpec (findPosts missDB [101, 999]) exCfg.ratePerLike
          exCfg.ratePer100Views ∧
      db2.claims = missDB.claims ++ [c2]) :=
  ⟨by decide, by decide, by decide, by decide, rfl, by decide, rfl,
    createClaim_ignores_missing_posts missDB 7 7 2 [101, 999] 0 exCfg
      (by decide) (by decide) (by decide) (by decide) rfl⟩

/-- C8: a lock call by actor B on a claim locked by a different actor A
returns false and leaves the stored claim untouched while the lock is
younger than 30 minutes; once the lock is 30 minutes old or older the call
returns true and rewrites `lockedBy` to B and `lockTimestamp` to the
current instant; and a lock call on an unlocked claim always succeeds and
takes the lock. -/
theorem lockClaim_reclaim_policy
    (db : DB) (claimId : Nat) (c : Claim) (A B : Nat) (now t : Int)
    (h : findById db claimId = some c) :
    (c.lockedBy = some A → A ≠ B → c.lockTimestamp = some t →
      (now - t < lockThresholdMs →
        lockClaim db claimId B now = .ok (db, false)) ∧
      (lockThresholdMs ≤ now - t →
        lockClaim db claimId B now =
          .ok (saveClaim db
            { c with lockedBy := some B, lockTimestamp := some now }, true))) ∧
    (c.lockedBy = none →
      lockClaim db claimId B now =
        .ok (saveClaim db
          { c with lockedBy := some B, lockTimestamp := some now }, true)) := by
  unfold lockClaim
  rw [h]
  constructor
  · intro hA hne hts
    simp only [hA, hts]
    constructor
    · intro hlt
      simp [hne, hlt]
    · intro hge
      have hnlt : ¬ (now - t < lockThresholdMs) := not_lt.mpr hge
      simp [hne, hnlt]
  · intro hnone
    simp [hnone]

/-- Fixture: a pending claim locked by actor 5 at instant 1000. -/
def lockedClaim : Claim :=
  { wClaim Status.pending with lockedBy := some 5, lockTimestamp := some 1000 }

/-- Fixture: store holding only `lockedClaim`. -/
def lockedDB : DB := ⟨[], [], [lockedClaim]⟩

/-- Witness for C8: actor 9 contends for the lock held by actor 5; a fresh
lock (1 ms old) is refused and a stale one (1000000000 ms old) is
reclaimed. -/
theorem lockClaim_reclaim_policy_witness :
    findById lockedDB 1 = some lockedClaim ∧
    ((lockedClaim.lockedBy = some 5 → 5 ≠ 9 →
      lockedClaim.lockTimestamp = some 1000 →
      ((1001 : Int) - 1000 < lockThresholdMs →
        lockClaim lockedDB 1 9 1001 = .ok (lockedDB, false)) ∧
      (lockThresholdMs ≤ (1001 : Int) - 1000 →
        lockClaim lockedDB 1 9 1001 =
          .ok (saveClaim lockedDB
            { lockedClaim with lockedBy := some 9, lockTimestamp := some 1001 },
            true))) ∧
    (lockedClaim.lockedBy = none →
      lockClaim lockedDB 1 9 1001 =
        .ok (saveClaim lockedDB
          { lockedClaim with lockedBy := some 9, lockTimestamp := some 1001 },
          true))) ∧
    lockClaim lockedDB 1 9 1001 = .ok (lockedDB, false) ∧
    (lockClaim lockedDB 1 9 1000001000).map (fun r => r.2) = .ok true ∧
    (lockClaim lockedDB 1 9 1000001000).map
      (fun r => (findById r.1 1).map (fun x => (x.lockedBy, x.lockTimestamp))) =
      .ok (some (some 9, some 1000001000)) :=
  ⟨rfl,
    lockClaim_reclaim_policy lockedDB 1 lockedClaim 5 9 1001 1000 rfl,
    rfl, rfl, rfl⟩

/-- A claim's history respects the fixed action vocabulary. -/
def historyOk (c : Claim) : Prop :=
  ∀ e ∈ c.history, e.action ∈ validActions

lemma action_mem_of_mem_purge {e : HistoryEntry} {h : List HistoryEntry}
    (he : e ∈ purgeHistory h) : e.action ∈ validActions := by
  unfold purgeHistory at he
  have h2 := (List.mem_filter.mp he).2
  simpa using h2

lemma historyOk_purge_append {hist : List HistoryEntry} {e0 : HistoryEntry}
    (h0 : e0.action ∈ validActions) :
    ∀ e ∈ purgeHistory hist ++ [e0], e.action ∈ validActions := by
  intro e he
  rcases List.mem_append.mp he with h1 | h2
  · exact action_mem_of_mem_purge h1
  · rw [List.mem_singleton.mp h2]
    exact h0

/-- C9: whenever any of the six mutating operations succeeds, every entry
of the returned claim's history has an action from the fixed seven-element
vocabulary — entries outside it were purged before the new entry was
appended. -/
theorem mutations_enforce_history_vocabulary
    (db : DB) (uid : Nat) (postIds : List Nat) (createdBy newId : Nat)
    (claimId : Nat) (amount : ℚ) (reason : String) (actor : Nat) (now : Int)
    (accepted : Bool) (db2 : DB) (c2 : Claim) :
    (createClaim db uid postIds createdBy newId now = .ok (db2, c2) →
      historyOk c2) ∧
    (applyDeduction db claimId amount reason actor now = .ok (db2, c2) →
      historyOk c2) ∧
    (respondToDeduction db claimId accepted actor now = .ok (db2, c2) →
      historyOk c2) ∧
    (accountApprove db claimId actor now = .ok (db2, c2) → historyOk c2) ∧
    (accountReject db claimId actor reason now = .ok (db2, c2) →
      historyOk c2) ∧
    (adminApprove db claimId actor now = .ok (db2, c2) → historyOk c2) := by
  refine ⟨?_, ?_, ?_, ?_, ?_, ?_⟩
  · intro heq
    unfold createClaim at heq
    split_ifs at heq <;> try exact Except.noConfusion heq
    split at heq
    · exact Except.noConfusion heq
    · simp only [Except.ok.injEq, Prod.mk.injEq] at heq
      obtain ⟨-, h2⟩ := heq
      subst h2
      intro e he
      rw [List.mem_singleton.mp he]
      show "submitted" ∈ validActions
      decide
  · intro heq
    cases hfind : findById db claimId with
    | none =>
        unfold applyDeduction at heq
        rw [hfind] at heq
        exact Except.noConfusion heq
    | some c =>
        rw [applyDeduction_of_found hfind amount reason actor now] at heq
        split_ifs at heq <;> try exact Except.noConfusion heq
        simp only [Except.ok.injEq, Prod.mk.injEq] at heq
        obtain ⟨-, h2⟩ := heq
        subst h2
        exact historyOk_purge_append
          (show "deduction_applied" ∈ validActions by decide)
  · intro heq
    cases hfind : findById db claimId with
    | none =>
        unfold respondToDeduction at heq
        rw [hfind] at heq
        exact Except.noConfusion heq
    | some c =>
        rw [respondToDeduction_of_found hfind accepted actor now] at heq
        split_ifs at heq <;> try exact Except.noConfusion heq
        simp only [Except.ok.injEq, Prod.mk.injEq] at heq
        obtain ⟨-, h2⟩ := heq
        subst h2
        cases accepted
        · exact historyOk_purge_append
            (show "user_rejected" ∈ validActions by decide)
        · exact historyOk_purge_append
            (show "user_accepted" ∈ validActions by decide)
  · intro heq
    cases hfind : findById db claimId with
    | none =>
        unfold accountApprove at heq
        rw [hfind] at heq
        exact Except.noConfusion heq
    | some c =>
        rw [accountApprove_of_found hfind actor now] at heq
        split_ifs at heq <;> try exact Except.noConfusion heq
        simp only [Except.ok.injEq, Prod.mk.injEq] at heq
        obtain ⟨-, h2⟩ := heq
        subst h2
        exact historyOk_purge_append
          (show "account_approved" ∈ validActions by decide)
  · intro heq
    cases hfind : findById db claimId with
    | none =>
        unfold accountReject at heq
        rw [hfind] at heq
        exact Except.noConfusion heq
    | some c =>
        rw [accountReject_of_found hfind actor reason now] at heq
        split_ifs at heq <;> try exact Except.noConfusion heq
        simp only [Except.ok.injEq, Prod.mk.injEq] at heq
        obtain ⟨-, h2⟩ := heq
        subst h2
        exact historyOk_purge_append
          (show "user_rejected" ∈ validActions by decide)
  · intro heq
    cases hfind : findById db claimId with
    | none =>
        unfold adminApprove at heq
        rw [hfind] at heq
        exact Except.noConfusion heq
    | some c =>
        rw [adminApprove_of_found hfind actor now] at heq
        split_ifs at heq <;> try exact Except.noConfusion heq
        simp only [Except.ok.injEq, Prod.mk.injEq] at heq
        obtain ⟨-, h2⟩ := heq
        subst h2
        exact historyOk_purge_append
          (show "admin_approved" ∈ validActions by decide)

/-- Fixture: a pending claim carrying a corrupt history entry. -/
def corruptClaim : Claim :=
  { wClaim Status.pending with
    history := [HistoryEntry.mk "hacked" 7 0 none,
                HistoryEntry.mk "submitted" 7 0 none] }

/-- Fixture: store holding only `corruptClaim`. -/
def corruptDB : DB := ⟨[], [], [corruptClaim]⟩

/-- Witness for C9: approving the claim whose history holds a corrupt
"hacked" entry yields a history of vocabulary actions only, the corrupt
entry having been dropped. -/
theorem mutations_enforce_history_vocabulary_witness :
    accountApprove corruptDB 1 9 0 =
      .ok (saveClaim corruptDB (accountApproveResult corruptClaim 9 0),
           accountApproveResult corruptClaim 9 0) ∧
    historyOk (accountApproveResult corruptClaim 9 0) ∧
    (accountApproveResult corruptClaim 9 0).history.map (fun e => e.action) =
      ["submitted", "account_approved"] :=
  ⟨rfl,
   (mutations_enforce_history_vocabulary corruptDB 7 [101] 7 2 1 5 "r" 9 0
      true (saveClaim corruptDB (accountApproveResult corruptClaim 9 0))
      (accountApproveResult corruptClaim 9 0)).2.2.2.1 rfl,
   by decide⟩

end CMS
